import Mathlib

/-!
Verification of the ibis edit-chain / federation core against its source.

The SHA-2 family is embedded over `List Nat` bytes (each `< 256`) with 32-bit
words represented as `Nat` reduced modulo `2 ^ 32` at every step, mirroring the
`sha2` crate as used by `EditVersion::new` (src/common/mod.rs) and
`DbEdit::new` (src/federation/objects/edit.rs).
-/

namespace Ibis

/-- 2^32, the word modulus of SHA-256/224. -/
def w32 : Nat := 4294967296

/-- Right rotation of a 32-bit word. -/
def rotr (w n : Nat) : Nat := ((w >>> n) ||| (w <<< (32 - n))) % w32

/-- SHA-2 `Ch(e,f,g)` choice function. -/
def chFn (e f g : Nat) : Nat := (e &&& f) ^^^ ((e ^^^ 4294967295) &&& g)

/-- SHA-2 `Maj(a,b,c)` majority function. -/
def majFn (a b c : Nat) : Nat := Nat.xor (Nat.xor (a &&& b) (a &&& c)) (b &&& c)

/-- Three-way xor. -/
def xor3 (a b c : Nat) : Nat := Nat.xor (Nat.xor a b) c

/-- SHA-2 big sigma 0. -/
def bigSigma0 (x : Nat) : Nat := xor3 (rotr x 2) (rotr x 13) (rotr x 22)

/-- SHA-2 big sigma 1. -/
def bigSigma1 (x : Nat) : Nat := xor3 (rotr x 6) (rotr x 11) (rotr x 25)

/-- SHA-2 small sigma 0 (message schedule). -/
def smallSigma0 (x : Nat) : Nat := xor3 (rotr x 7) (rotr x 18) (x >>> 3)

/-- SHA-2 small sigma 1 (message schedule). -/
def smallSigma1 (x : Nat) : Nat := xor3 (rotr x 17) (rotr x 19) (x >>> 10)

/-- The 64 SHA-256 round constants (FIPS 180-4, written in decimal). -/
def K256 : List Nat :=
  [1116352408, 1899447441, 3049323471, 3921009573, 961987163,
   1508970993, 2453635748, 2870763221, 3624381080, 310598401,
   607225278, 1426881987, 1925078388, 2162078206, 2614888103,
   3248222580, 3835390401, 4022224774, 264347078, 604807628,
   770255983, 1249150122, 1555081692, 1996064986, 2554220882,
   2821834349, 2952996808, 3210313671, 3336571891, 3584528711,
   113926993, 338241895, 666307205, 773529912, 1294757372,
   1396182291, 1695183700, 1986661051, 2177026350, 2456956037,
   2730485921, 2820302411, 3259730800, 3345764771, 3516065817,
   3600352804, 4094571909, 275423344, 430227734, 506948616,
   659060556, 883997877, 958139571, 1322822218, 1537002063,
   1747873779, 1955562222, 2024104815, 2227730452, 2361852424,
   2428436474, 2756734187, 3204031479, 3329325298]

/-- The eight 32-bit chaining words of a SHA-2 state. -/
structure Sha2State where
  a : Nat
  b : Nat
  c : Nat
  d : Nat
  e : Nat
  f : Nat
  g : Nat
  h : Nat
deriving DecidableEq, Repr

/-- SHA-256 initial hash value (FIPS 180-4, written in decimal). -/
def iv256 : Sha2State :=
  ⟨1779033703, 3144134277, 1013904242, 2773480762,
   1359893119, 2600822924, 528734635, 1541459225⟩

/-- SHA-224 initial hash value (FIPS 180-4, written in decimal). -/
def iv224 : Sha2State :=
  ⟨3238371032, 914150663, 812702999, 4144912697,
   4290775857, 1750603025, 1694076839, 3204075428⟩

/-- One SHA-2 compression round with round constant and schedule word `kw`. -/
def shaRound (s : Sha2State) (kw : Nat × Nat) : Sha2State :=
  let t1 := (s.h + bigSigma1 s.e + chFn s.e s.f s.g + kw.1 + kw.2) % w32
  let t2 := (bigSigma0 s.a + majFn s.a s.b s.c) % w32
  ⟨(t1 + t2) % w32, s.a, s.b, s.c, (s.d + t1) % w32, s.e, s.f, s.g⟩

/-- The next message-schedule word extending the list `ws`. -/
def nextW (ws : List Nat) : Nat :=
  let n := ws.length
  (smallSigma1 (ws.getD (n - 2) 0) + ws.getD (n - 7) 0 +
    smallSigma0 (ws.getD (n - 15) 0) + ws.getD (n - 16) 0) % w32

/-- Extend the message schedule by `n` further words. -/
def extendW : Nat → List Nat → List Nat
  | 0, ws => ws
  | n + 1, ws => extendW n (ws ++ [nextW ws])

/-- Componentwise modular addition of the feed-forward step. -/
def addState (s t : Sha2State) : Sha2State :=
  ⟨(s.a + t.a) % w32, (s.b + t.b) % w32, (s.c + t.c) % w32, (s.d + t.d) % w32,
   (s.e + t.e) % w32, (s.f + t.f) % w32, (s.g + t.g) % w32, (s.h + t.h) % w32⟩

/-- Compress one 16-word message block into the chaining state. -/
def compressBlock (s : Sha2State) (block : List Nat) : Sha2State :=
  let w := extendW 48 block
  addState s ((K256.zip w).foldl shaRound s)

/-- SHA-2 padding: append `0x80`, zeros, and the 64-bit big-endian bit length. -/
def padMessage (msg : List Nat) : List Nat :=
  let len := msg.length
  let zeros := (64 - (len + 9) % 64) % 64
  msg ++ [128] ++ List.replicate zeros 0 ++
    (List.range 8).map (fun i => len * 8 / 2 ^ (8 * (7 - i)) % 256)

/-- Parse 64 bytes into 16 big-endian 32-bit words. -/
def bytesToWords (bs : List Nat) : List Nat :=
  (List.range 16).map (fun i =>
    bs.getD (4 * i) 0 * 16777216 + bs.getD (4 * i + 1) 0 * 65536 +
      bs.getD (4 * i + 2) 0 * 256 + bs.getD (4 * i + 3) 0)

/-- Split a padded byte string into 16-word blocks (`fuel` bounds recursion). -/
def chunkBlocks : Nat → List Nat → List (List Nat)
  | 0, _ => []
  | _ + 1, [] => []
  | n + 1, bs => bytesToWords (bs.take 64) :: chunkBlocks n (bs.drop 64)

/-- Run the SHA-2 compression over a byte message from the given IV. -/
def sha2Core (iv : Sha2State) (msg : List Nat) : Sha2State :=
  let padded := padMessage msg
  (chunkBlocks padded.length padded).foldl compressBlock iv

/-- Big-endian bytes of one 32-bit word. -/
def wordBytes (w : Nat) : List Nat :=
  [w / 16777216 % 256, w / 65536 % 256, w / 256 % 256, w % 256]

/-- The 32-byte SHA-256 digest of a byte message. -/
def sha256Bytes (msg : List Nat) : List Nat :=
  let s := sha2Core iv256 msg
  wordBytes s.a ++ wordBytes s.b ++ wordBytes s.c ++ wordBytes s.d ++
    wordBytes s.e ++ wordBytes s.f ++ wordBytes s.g ++ wordBytes s.h

/-- The 28-byte SHA-224 digest of a byte message (first seven words). -/
def sha224Bytes (msg : List Nat) : List Nat :=
  let s := sha2Core iv224 msg
  wordBytes s.a ++ wordBytes s.b ++ wordBytes s.c ++ wordBytes s.d ++
    wordBytes s.e ++ wordBytes s.f ++ wordBytes s.g

/-- The UTF-8 encoding of one Unicode scalar value. -/
def utf8Char (c : Char) : List Nat :=
  let n := c.toNat
  if n < 0x80 then [n]
  else if n < 0x800 then [0xC0 + n / 0x40, 0x80 + n % 0x40]
  else if n < 0x10000 then [0xE0 + n / 0x1000, 0x80 + n / 0x40 % 0x40, 0x80 + n % 0x40]
  else [0xF0 + n / 0x40000, 0x80 + n / 0x1000 % 0x40, 0x80 + n / 0x40 % 0x40, 0x80 + n % 0x40]

/-- The exact UTF-8 byte sequence of a string, as hashed by `sha256.update(diff)`. -/
def utf8Bytes (s : String) : List Nat := (s.data.map utf8Char).flatten

/-- Lowercase hexadecimal digit characters, as used by `hex::encode`. -/
def hexDigitsLower : List Char := "0123456789abcdef".data

/-- Uppercase hexadecimal digit characters, as used by the `{:X}` formatter. -/
def hexDigitsUpper : List Char := "0123456789ABCDEF".data

/-- Two lowercase hex characters of one byte. -/
def byteHexLower (b : Nat) : List Char :=
  [hexDigitsLower.getD (b / 16) '0', hexDigitsLower.getD (b % 16) '0']

/-- Two uppercase hex characters of one byte (zero padded, as `UpperHex` for byte arrays). -/
def byteHexUpper (b : Nat) : List Char :=
  [hexDigitsUpper.getD (b / 16) '0', hexDigitsUpper.getD (b % 16) '0']

/-- The character sequence of the lowercase hex rendering of a byte string. -/
def hexChars (bs : List Nat) : List Char := (bs.map byteHexLower).flatten

/-- `hex::encode`: lowercase hex rendering of a byte string. -/
def hexEncode (bs : List Nat) : String := String.mk (hexChars bs)

/-- Uppercase hex rendering of a byte string, the `format!("\x7b:X\x7d", digest)` output. -/
def hexEncodeUpper (bs : List Nat) : String := String.mk (bs.map byteHexUpper).flatten

/-- `EditVersion` (src/common/mod.rs, lines 90-114): the version hash of an edit,
the first 16 bytes of the SHA-256 hash of the diff, stored as a UUID. -/
structure EditVersion where
  uuid : List Nat
deriving DecidableEq, Repr

/-- `EditVersion::new`: SHA-256 the diff and keep the first 16 bytes. -/
def EditVersion.new (diff : String) : EditVersion :=
  ⟨(sha256Bytes (utf8Bytes diff)).take 16⟩

/-- `EditVersion::hash`: lowercase hex of the 16 stored bytes. -/
def EditVersion.hash (v : EditVersion) : String := hexEncode v.uuid

/-- `impl Default for EditVersion`: `EditVersion::new("")`. -/
def EditVersion.default : EditVersion := EditVersion.new ""

/-- The hash that the federation layer `DbEdit::new`
(src/federation/objects/edit.rs, lines 21-34) embeds in the edit id, as a
function of the rendered diff string: SHA-224 over the diff bytes, rendered
as uppercase hexadecimal by `format!("\x7b:X\x7d", sha224.finalize())`. -/
def editHashOfDiff (diff : String) : String := hexEncodeUpper (sha224Bytes (utf8Bytes diff))

/-- The hash that the database layer embeds for the same diff string:
`EditVersion::new(diff)` rendered by `EditVersion::hash`. -/
def dbHashOfDiff (diff : String) : String := (EditVersion.new diff).hash

/-! ## DiffEngine (spec §4.2)

Modelled from the spec: the DiffEngine (`make_patch` / `apply`, spec §4.2) is
not part of the source snapshot (the source calls the external `diffy` crate).
Per the spec, `make_patch` produces a line-level patch and `apply` applies it,
failing with `ApplyError` when a hunk cannot locate its context. The patch is
modelled structurally as the hunk body: a list of keep/delete/insert line
operations, where each line carries its terminating newline. -/

/-- One line operation of a patch hunk body: an unchanged context line, a
deleted line, or an inserted line. -/
inductive LineOp
  | keep (l : List Char)
  | del (l : List Char)
  | ins (l : List Char)
deriving DecidableEq, Repr

/-- Accumulator-based splitter: each produced line keeps its terminating
newline character; a final unterminated line is kept as-is. -/
def splitLinesAux : List Char → List Char → List (List Char)
  | [], acc => if acc.isEmpty then [] else [acc.reverse]
  | c :: rest, acc =>
    if c = '\n' then (c :: acc).reverse :: splitLinesAux rest []
    else splitLinesAux rest (c :: acc)

/-- Split a character sequence into newline-terminated lines. -/
def splitLines (s : List Char) : List (List Char) := splitLinesAux s []

/-- Modelled from the spec: a deterministic line diff between the old and the
new line sequences, emitting context lines for common lines. -/
def diffOps : List (List Char) → List (List Char) → List LineOp
  | [], [] => []
  | [], y :: ys => .ins y :: diffOps [] ys
  | x :: xs, [] => .del x :: diffOps xs []
  | x :: xs, y :: ys =>
    if x = y then .keep x :: diffOps xs ys
    else .del x :: diffOps xs (y :: ys)
termination_by xs ys => xs.length + ys.length

/-- The old-file projection of a hunk body (context and deleted lines). -/
def opsOld : List LineOp → List (List Char)
  | [] => []
  | .keep l :: ops => l :: opsOld ops
  | .del l :: ops => l :: opsOld ops
  | .ins _ :: ops => opsOld ops

/-- The new-file projection of a hunk body (context and inserted lines). -/
def opsNew : List LineOp → List (List Char)
  | [] => []
  | .keep l :: ops => l :: opsNew ops
  | .del _ :: ops => opsNew ops
  | .ins l :: ops => l :: opsNew ops

/-- `ApplyError` (spec §4.2): a hunk could not locate its context. -/
inductive ApplyError
  | contextMismatch
deriving DecidableEq, Repr

/-- Modelled from the spec: replay a hunk body against the base lines,
checking every context and deleted line against the base and failing with
`ApplyError` on any mismatch; base lines beyond the hunk are kept. -/
def applyOps : List (List Char) → List LineOp → Except ApplyError (List (List Char))
  | base, [] => .ok base
  | base, .ins l :: ops => (applyOps base ops).map (fun r => l :: r)
  | [], .keep _ :: _ => .error .contextMismatch
  | b :: base, .keep l :: ops =>
    if b = l then (applyOps base ops).map (fun r => l :: r)
    else .error .contextMismatch
  | [], .del _ :: _ => .error .contextMismatch
  | b :: base, .del l :: ops =>
    if b = l then applyOps base ops else .error .contextMismatch

/-- A patch: the body of the single hunk covering the file. -/
structure Patch where
  ops : List LineOp
deriving DecidableEq, Repr

/-- Modelled from the spec: `make_patch(old, new)` produces a line-level patch
turning `old` into `new`. -/
def make_patch (old updated : String) : Patch :=
  ⟨diffOps (splitLines old.data) (splitLines updated.data)⟩

/-- Modelled from the spec: `apply(base, patch)` applies the patch to the base
text, returning the patched text or an `ApplyError`. -/
def apply (base : String) (patch : Patch) : Except ApplyError String :=
  (applyOps (splitLines base.data) patch.ops).map (fun ls => String.mk ls.flatten)

/-! ## Federation objects (src/federation/objects/) -/

/-- A URL, reduced to the fields the federation layer inspects: the host
(domain) and the remainder. -/
structure Url where
  host : String
  path : String
deriving DecidableEq, Repr

/-- `Url::domain()`. -/
def Url.domain (u : Url) : String := u.host

/-- Rendering of a URL. -/
def Url.render (u : Url) : String := u.host ++ u.path

/-- Federation-layer validation error (`activitypub_federation` crate). -/
inductive FedError
  | urlVerificationError
deriving DecidableEq, Repr

/-- `verify_domains_match` from the activitypub_federation crate: succeeds
exactly when the two URLs have the same domain. -/
def verify_domains_match (a b : Url) : Except FedError Unit :=
  if a.domain = b.domain then .ok () else .error .urlVerificationError

/-- `PublicKey` wire object from the activitypub_federation crate. -/
structure PublicKey where
  id : String
  owner : Url
  public_key_pem : String
deriving DecidableEq, Repr

/-- `DbInstance` (src/federation/objects/instance.rs, lines 16-26). The Rust
field `local` is named `is_local` here (`local` is reserved in Lean);
`last_refreshed_at` timestamps are modelled as integers. -/
structure DbInstance where
  ap_id : Url
  inbox : Url
  public_key : String
  private_key : Option String
  last_refreshed_at : Int
  followers : List Url
  follows : List Url
  is_local : Bool
deriving DecidableEq, Repr

/-- `Actor::public_key()` default implementation from the crate: a main-key
`PublicKey` built from the actor id and its PEM. -/
def DbInstance.public_key_obj (i : DbInstance) : PublicKey :=
  ⟨i.ap_id.render ++ "#main-key", i.ap_id, i.public_key⟩

/-- `Actor::shared_inbox` default implementation (`None`); `DbInstance`'s
`Actor` impl (src/federation/objects/instance.rs, lines 131-147) does not
override it. -/
def DbInstance.shared_inbox (_i : DbInstance) : Option Url := none

/-- `Actor::shared_inbox_or_inbox`: the shared inbox when present, the
personal inbox otherwise. -/
def DbInstance.shared_inbox_or_inbox (i : DbInstance) : Url :=
  i.shared_inbox.getD i.inbox

/-- `ServiceType` actor kind (singleton). -/
inductive ServiceType
  | Service
deriving DecidableEq, Repr

/-- `Instance`, the Apub wire form of `DbInstance`
(src/federation/objects/instance.rs, lines 28-36). -/
structure Instance where
  kind : ServiceType
  id : Url
  inbox : Url
  public_key : PublicKey
deriving DecidableEq, Repr

/-- `Object::into_json` for `DbInstance` (instance.rs, lines 96-103). -/
def DbInstance.into_json (self : DbInstance) : Instance :=
  ⟨ServiceType.Service, self.ap_id, self.inbox, self.public_key_obj⟩

/-- `Object::verify` for `DbInstance` (instance.rs, lines 105-112):
`verify_domains_match(json.id, expected_domain)`. -/
def DbInstance.verify (json : Instance) (expected_domain : Url) : Except FedError Unit :=
  verify_domains_match json.id expected_domain

/-- `Object::from_json` for `DbInstance` (instance.rs, lines 114-128): builds
the decoded instance and pushes it onto the shared in-memory instance list.
The ambient clock and the mutexed list are passed explicitly. -/
def DbInstance.from_json (json : Instance) (now : Int) (instances : List DbInstance) :
    DbInstance × List DbInstance :=
  let inst : DbInstance :=
    { ap_id := json.id
      inbox := json.inbox
      public_key := json.public_key.public_key_pem
      private_key := none
      last_refreshed_at := now
      followers := []
      follows := []
      is_local := false }
  (inst, instances ++ [inst])

/-- `Follow` activity. Modelled from the spec (§4.7) and its use site
(instance.rs, line 52): src/federation/activities/follow.rs is not in the
source snapshot; `Follow::new(actor, object)` records the two actor ids. -/
structure Follow where
  actor : Url
  object : Url
deriving DecidableEq, Repr

/-- `Follow::new`. -/
def Follow.new (actor object : Url) : Follow := ⟨actor, object⟩

/-- The standard activity-streams context IRI. -/
def activityStreamsContext : String := "https://www.w3.org/ns/activitystreams"

/-- `WithContext` envelope from the activitypub_federation crate. -/
structure WithContext (α : Type) where
  context : List String
  inner : α

/-- `WithContext::new_default`: attach the standard activity-streams
context. -/
def WithContext.new_default {α : Type} (a : α) : WithContext α :=
  ⟨[activityStreamsContext], a⟩

/-- An enqueued outbound delivery: the enveloped payload, the signing actor
and the recipient inbox URLs (the observable arguments of `send_activity`). -/
structure Delivery (α : Type) where
  payload : WithContext α
  actor : Url
  recipients : List Url

/-- `DbInstance::send` (instance.rs, lines 58-71): wrap the activity in the
default context envelope and hand it to `send_activity` for the given
recipients. -/
def DbInstance.send {α : Type} (self : DbInstance) (activity : α) (recipients : List Url) :
    Delivery α :=
  ⟨WithContext.new_default activity, self.ap_id, recipients⟩

/-- `DbInstance::follow` (instance.rs, lines 47-56): send a `Follow` to the
other instance's shared-inbox-or-inbox. -/
def DbInstance.follow (self other : DbInstance) : Delivery Follow :=
  self.send (Follow.new self.ap_id other.ap_id) [other.shared_inbox_or_inbox]

namespace Federation

/-- The federation-layer `DbEdit` (src/federation/objects/edit.rs, lines
13-19). The Rust field `local` is named `is_local` here. -/
structure DbEdit where
  id : Url
  diff : String
  is_local : Bool
deriving DecidableEq, Repr

/-- `EditType` (edit.rs, lines 36-39), a singleton serialized as "Edit". -/
inductive EditType
  | Edit
deriving DecidableEq, Repr

/-- Serde serialization of `EditType`: the variant name. -/
def EditType.serialize : EditType → String
  | .Edit => "Edit"

/-- `ApubEdit`, the wire form of an edit (edit.rs, lines 41-48): fields
`kind` (serialized as `type`), `id`, `diff`. -/
structure ApubEdit where
  kind : EditType
  id : Url
  diff : String
deriving DecidableEq, Repr

/-- The serde wire fields of `ApubEdit`, in declaration order: the derive
renames `kind` to `type` and camelCases the rest (a no-op for `id` and
`diff`). -/
def ApubEdit.serializeFields (e : ApubEdit) : List (String × String) :=
  [("type", e.kind.serialize), ("id", e.id.render), ("diff", e.diff)]

/-- `Object::into_json` for the federation `DbEdit` (edit.rs, lines 63-69). -/
def DbEdit.into_json (self : DbEdit) : ApubEdit :=
  ⟨EditType.Edit, self.id, self.diff⟩

/-- `Object::verify` for the federation `DbEdit` (edit.rs, lines 71-77): the
body is `Ok(())` — it accepts every JSON against every expected domain. -/
def DbEdit.verify (_json : ApubEdit) (_expected_domain : Url) : Except FedError Unit :=
  .ok ()

/-- `Object::from_json` for the federation `DbEdit` (edit.rs, lines 79-88). -/
def DbEdit.from_json (json : ApubEdit) : DbEdit :=
  ⟨json.id, json.diff, false⟩

end Federation

/-! ## The demo database (src/instance.rs) -/

/-- `DbUser`. Modelled from its use sites: src/federation/objects/person.rs is
not in the source snapshot; `Database::read_user` only reads the `name`
field. -/
structure DbUser where
  name : String
deriving DecidableEq, Repr

/-- `Database` (src/instance.rs, lines 35-39), restricted to the `users` list
that `read_user` consults (the mutex is elided; state is passed by value). -/
structure Database where
  users : List DbUser
deriving DecidableEq, Repr

/-- `Database::local_user` (instance.rs, lines 57-60):
`users.first().unwrap()` — the panic on an empty list is modelled as
`none`. -/
def Database.local_user (db : Database) : Option DbUser := db.users.head?

/-- `Database::read_user` (instance.rs, lines 62-69): compare `name` against
the first user only; `none` models the `local_user` panic on an empty
list. -/
def Database.read_user (db : Database) (name : String) : Option (Except String DbUser) :=
  db.local_user.map (fun db_user =>
    if name = db_user.name then .ok db_user
    else .error ("Invalid user " ++ name))

/-! ## Helper lemmas -/

theorem getD_mem_of_default_mem {α : Type} {l : List α} {d : α} (hd : d ∈ l) (n : Nat) :
    l.getD n d ∈ l := by
  by_cases h : n < l.length
  · rw [List.getD_eq_getElem l d h]
    exact List.getElem_mem h
  · have hn : l[n]? = none := List.getElem?_eq_none (by omega)
    rw [List.getD_eq_getElem?_getD, hn]
    exact hd

theorem hexChars_length (bs : List Nat) : (hexChars bs).length = 2 * bs.length := by
  induction bs with
  | nil => rfl
  | cons b bs ih =>
    simp only [hexChars, List.map_cons, List.flatten_cons, List.length_append,
      byteHexLower, List.length_cons, List.length_nil] at ih ⊢
    omega

theorem mem_hexChars {c : Char} : ∀ {bs : List Nat}, c ∈ hexChars bs → c ∈ hexDigitsLower := by
  intro bs
  induction bs with
  | nil => intro h; simp [hexChars] at h
  | cons b bs ih =>
    intro h
    simp only [hexChars, List.map_cons, List.flatten_cons, List.mem_append] at h
    rcases h with h | h
    · simp only [byteHexLower, List.mem_cons, List.not_mem_nil, or_false] at h
      rcases h with h | h <;> rw [h] <;>
        exact getD_mem_of_default_mem (by decide) _
    · exact ih h

theorem upperChars_length (bs : List Nat) :
    ((bs.map byteHexUpper).flatten).length = 2 * bs.length := by
  induction bs with
  | nil => rfl
  | cons b bs ih =>
    simp only [List.map_cons, List.flatten_cons, List.length_append, byteHexUpper,
      List.length_cons, List.length_nil] at ih ⊢
    omega

theorem sha256Bytes_length (m : List Nat) : (sha256Bytes m).length = 32 := by
  simp [sha256Bytes, wordBytes]

theorem sha224Bytes_length (m : List Nat) : (sha224Bytes m).length = 28 := by
  simp [sha224Bytes, wordBytes]

theorem editVersion_uuid_length (d : String) : (EditVersion.new d).uuid.length = 16 := by
  show ((sha256Bytes (utf8Bytes d)).take 16).length = 16
  rw [List.length_take, sha256Bytes_length]
  decide

theorem splitLinesAux_flatten :
    ∀ (s acc : List Char), (splitLinesAux s acc).flatten = acc.reverse ++ s := by
  intro s
  induction s with
  | nil =>
    intro acc
    rcases acc with _ | ⟨a, as⟩ <;> simp [splitLinesAux]
  | cons c rest ih =>
    intro acc
    by_cases hc : c = '\n'
    · subst hc
      simp [splitLinesAux, ih]
    · simp [splitLinesAux, hc, ih]

theorem splitLines_flatten (s : List Char) : (splitLines s).flatten = s := by
  simpa using splitLinesAux_flatten s []

theorem opsOld_diffOps : ∀ (xs ys : List (List Char)), opsOld (diffOps xs ys) = xs := by
  intro xs ys
  induction xs, ys using diffOps.induct with
  | case1 => simp [diffOps, opsOld]
  | case2 y ys ih => simp [diffOps, opsOld, ih]
  | case3 x xs ih => simp [diffOps, opsOld, ih]
  | case4 xs y ys ih => simp [diffOps, opsOld, ih]
  | case5 x xs y ys hne ih => simp [diffOps, opsOld, hne, ih]

theorem opsNew_diffOps : ∀ (xs ys : List (List Char)), opsNew (diffOps xs ys) = ys := by
  intro xs ys
  induction xs, ys using diffOps.induct with
  | case1 => simp [diffOps, opsNew]
  | case2 y ys ih => simp [diffOps, opsNew, ih]
  | case3 x xs ih => simp [diffOps, opsNew, ih]
  | case4 xs y ys ih => simp [diffOps, opsNew, ih]
  | case5 x xs y ys hne ih => simp [diffOps, opsNew, hne, ih]

theorem applyOps_opsOld (ops : List LineOp) :
    applyOps (opsOld ops) ops = Except.ok (opsNew ops) := by
  induction ops with
  | nil => rfl
  | cons op ops ih =>
    cases op with
    | keep l => simp [opsOld, opsNew, applyOps, ih, Except.map]
    | del l => simp [opsOld, opsNew, applyOps, ih]
    | ins l => simp [opsOld, opsNew, applyOps, ih, Except.map]

/-! ## Claim theorems -/

/-- C1: for every diff string `d`, `EditVersion::new(d)` is the first 16 bytes
of the SHA-256 digest of the exact UTF-8 bytes of `d`; the `Default`
`EditVersion` is `EditVersion::new("")`; equality of `EditVersion`s is
byte-equality of the stored 16 bytes; and `hash()` renders exactly those bytes
as a 32-character lowercase hexadecimal string. -/
theorem c1_edit_version_scheme (d : String) :
    (EditVersion.new d).uuid = (sha256Bytes (utf8Bytes d)).take 16 ∧
    EditVersion.default = EditVersion.new "" ∧
    (∀ v w : EditVersion, v = w ↔ v.uuid = w.uuid) ∧
    (EditVersion.new d).hash = hexEncode (EditVersion.new d).uuid ∧
    (EditVersion.new d).hash.length = 32 ∧
    ∀ c ∈ (EditVersion.new d).hash.data, c ∈ hexDigitsLower := by
  refine ⟨rfl, rfl, ?_, rfl, ?_, ?_⟩
  · intro v w
    constructor
    · intro h; rw [h]
    · intro h; cases v; cases w; simpa using h
  · show (hexChars (EditVersion.new d).uuid).length = 32
    rw [hexChars_length, editVersion_uuid_length]
  · intro c hc
    exact mem_hexChars hc

/-- Witness for C1 at the concrete diff `"test"`. -/
theorem c1_edit_version_scheme_witness :
    (EditVersion.new "test").uuid = (sha256Bytes (utf8Bytes "test")).take 16 ∧
    EditVersion.default = EditVersion.new "" ∧
    (∀ v w : EditVersion, v = w ↔ v.uuid = w.uuid) ∧
    (EditVersion.new "test").hash = hexEncode (EditVersion.new "test").uuid ∧
    (EditVersion.new "test").hash.length = 32 ∧
    ∀ c ∈ (EditVersion.new "test").hash.data, c ∈ hexDigitsLower :=
  c1_edit_version_scheme "test"

set_option maxRecDepth 8000 in
/-- C2: `EditVersion::default().hash()` is exactly
`"e3b0c44298fc1c149afbf4c8996fb924"` and `EditVersion::new("test").hash()` is
exactly `"9f86d081884c7d659a2feaa0c55ad015"` (the `test_edit_versions` test
vectors, src/common/mod.rs lines 264-271). -/
theorem c2_test_edit_versions :
    EditVersion.default.hash = "e3b0c44298fc1c149afbf4c8996fb924" ∧
    (EditVersion.new "test").hash = "9f86d081884c7d659a2feaa0c55ad015" := by
  constructor <;> decide

set_option maxRecDepth 8000 in
/-- C3 counterexample: at the concrete diff string `"test"`, the hash the
federation layer `DbEdit::new` embeds in the edit id (SHA-224, uppercase hex)
differs from the identifier the database layer `EditVersion::new` renders —
the two layers do not share one hashing scheme. -/
theorem c3_counterexample_hash_layers :
    editHashOfDiff "test" ≠ dbHashOfDiff "test" := by decide

/-- C3 amended: the two layers never agree: for every diff string, the
federation-layer hash (SHA-224 rendered as 56 uppercase hex characters)
differs from the database-layer identifier (SHA-256 truncated to 16 bytes and
rendered as 32 lowercase hex characters) — already their lengths differ. -/
theorem c3_hash_layers_differ (diff : String) :
    (editHashOfDiff diff).length = 56 ∧ (dbHashOfDiff diff).length = 32 ∧
    editHashOfDiff diff ≠ dbHashOfDiff diff := by
  have h1 : (editHashOfDiff diff).length = 56 := by
    show ((sha224Bytes (utf8Bytes diff)).map byteHexUpper).flatten.length = 56
    rw [upperChars_length, sha224Bytes_length]
  have h2 : (dbHashOfDiff diff).length = 32 := by
    show (hexChars (EditVersion.new diff).uuid).length = 32
    rw [hexChars_length, editVersion_uuid_length]
  refine ⟨h1, h2, fun h => ?_⟩
  rw [h, h2] at h1
  exact absurd h1 (by decide)

/-- C4: for every pair of strings `a` and `b`, applying the patch produced by
`make_patch(a, b)` to the base text `a` succeeds and yields exactly `b`. -/
theorem c4_patch_roundtrip (a b : String) :
    apply a (make_patch a b) = Except.ok b := by
  have hold : opsOld (diffOps (splitLines a.data) (splitLines b.data)) = splitLines a.data :=
    opsOld_diffOps _ _
  have hnew : opsNew (diffOps (splitLines a.data) (splitLines b.data)) = splitLines b.data :=
    opsNew_diffOps _ _
  have happ := applyOps_opsOld (diffOps (splitLines a.data) (splitLines b.data))
  rw [hold, hnew] at happ
  show (applyOps (splitLines a.data) (diffOps (splitLines a.data) (splitLines b.data))).map
      (fun ls => String.mk ls.flatten) = Except.ok b
  rw [happ]
  show Except.ok (String.mk (splitLines b.data).flatten) = Except.ok b
  rw [splitLines_flatten]

/-- C5 counterexample: for a remote instance with a follower and a private
key, `from_json ∘ into_json` does not equal the original with only `local`
cleared and `last_refreshed_at` stamped — the decoded value also loses the
followers, follows and private key. -/
theorem c5_counterexample_roundtrip :
    (DbInstance.from_json
        (DbInstance.into_json
          { ap_id := ⟨"a.example", "/"⟩, inbox := ⟨"a.example", "/inbox"⟩,
            public_key := "PEM", private_key := some "SECRET",
            last_refreshed_at := 5, followers := [⟨"b.example", "/"⟩],
            follows := [], is_local := true })
        7 []).1 ≠
      { ap_id := ⟨"a.example", "/"⟩, inbox := ⟨"a.example", "/inbox"⟩,
        public_key := "PEM", private_key := some "SECRET",
        last_refreshed_at := 7, followers := [⟨"b.example", "/"⟩],
        follows := [], is_local := false } := by decide

/-- C5 amended: `from_json ∘ into_json` preserves `ap_id`, `inbox` and the
public-key PEM, sets `local := false`, stamps `last_refreshed_at` with the
current time, and resets `private_key`, `followers` and `follows` to empty;
for `Edit` objects the round trip preserves `id` and `diff` and sets
`local := false`. -/
theorem c5_roundtrip_amended (x : DbInstance) (now : Int) (st : List DbInstance)
    (e : Federation.DbEdit) :
    (DbInstance.from_json (DbInstance.into_json x) now st).1.ap_id = x.ap_id ∧
    (DbInstance.from_json (DbInstance.into_json x) now st).1.inbox = x.inbox ∧
    (DbInstance.from_json (DbInstance.into_json x) now st).1.public_key = x.public_key ∧
    (DbInstance.from_json (DbInstance.into_json x) now st).1.is_local = false ∧
    (DbInstance.from_json (DbInstance.into_json x) now st).1.last_refreshed_at = now ∧
    (DbInstance.from_json (DbInstance.into_json x) now st).1.private_key = none ∧
    (DbInstance.from_json (DbInstance.into_json x) now st).1.followers = [] ∧
    (DbInstance.from_json (DbInstance.into_json x) now st).1.follows = [] ∧
    Federation.DbEdit.from_json (Federation.DbEdit.into_json e) =
      { e with is_local := false } := by
  refine ⟨rfl, rfl, rfl, rfl, rfl, rfl, rfl, rfl, ?_⟩
  cases e
  rfl

/-- C6 counterexample: `DbEdit::verify` accepts an `ApubEdit` whose id lives
on a different domain than the delivering one — the domain check does not hold
for Edit objects. -/
theorem c6_counterexample_edit_verify :
    (Federation.ApubEdit.mk Federation.EditType.Edit
        ⟨"attacker.example", "/edits/1"⟩ "d").id.domain ≠
      (Url.mk "example.org" "").domain ∧
    Federation.DbEdit.verify
      (Federation.ApubEdit.mk Federation.EditType.Edit
        ⟨"attacker.example", "/edits/1"⟩ "d")
      (Url.mk "example.org" "") = Except.ok () :=
  ⟨by decide, rfl⟩

/-- C6 amended: `DbInstance::verify` succeeds exactly when the JSON id's
origin domain equals the delivering domain, but `DbEdit::verify` succeeds for
every JSON and every expected domain. -/
theorem c6_verify_amended (json : Instance) (dom : Url)
    (j : Federation.ApubEdit) (d : Url) :
    (DbInstance.verify json dom = Except.ok () ↔ json.id.domain = dom.domain) ∧
    Federation.DbEdit.verify j d = Except.ok () := by
  refine ⟨?_, rfl⟩
  unfold DbInstance.verify verify_domains_match
  by_cases h : json.id.domain = dom.domain
  · simp [h]
  · simp [h]

/-- Witness for C6 at concrete inputs: a matching Instance verification and an
Edit verification. -/
theorem c6_verify_amended_witness :
    (DbInstance.verify
        ⟨ServiceType.Service, ⟨"example.org", "/"⟩, ⟨"example.org", "/inbox"⟩,
          ⟨"key", ⟨"example.org", "/"⟩, "PEM"⟩⟩
        ⟨"example.org", "/inbox"⟩ = Except.ok () ↔
      (Url.mk "example.org" "/").domain = (Url.mk "example.org" "/inbox").domain) ∧
    Federation.DbEdit.verify
      (Federation.ApubEdit.mk Federation.EditType.Edit ⟨"example.org", "/e/1"⟩ "d")
      ⟨"example.org", ""⟩ = Except.ok () :=
  c6_verify_amended
    ⟨ServiceType.Service, ⟨"example.org", "/"⟩, ⟨"example.org", "/inbox"⟩,
      ⟨"key", ⟨"example.org", "/"⟩, "PEM"⟩⟩
    ⟨"example.org", "/inbox"⟩
    (Federation.ApubEdit.mk Federation.EditType.Edit ⟨"example.org", "/e/1"⟩ "d")
    ⟨"example.org", ""⟩

/-- C7 counterexample: a concrete serialized edit carries only the fields
`type`, `id`, `diff` — neither `previousVersion` nor `summary` appears on the
wire. -/
theorem c7_counterexample_wire_fields :
    (Federation.ApubEdit.serializeFields
        ⟨Federation.EditType.Edit, ⟨"example.org", "/edits/1"⟩, "d"⟩).map Prod.fst ≠
      ["type", "id", "diff", "previousVersion", "summary"] ∧
    "previousVersion" ∉ ((Federation.ApubEdit.serializeFields
        ⟨Federation.EditType.Edit, ⟨"example.org", "/edits/1"⟩, "d"⟩).map Prod.fst) ∧
    "summary" ∉ ((Federation.ApubEdit.serializeFields
        ⟨Federation.EditType.Edit, ⟨"example.org", "/edits/1"⟩, "d"⟩).map Prod.fst) :=
  ⟨by decide, by decide, by decide⟩

/-- C7 amended: the wire form of an edit carries exactly the fields `type`
(with value `"Edit"`), `id` and `diff`; it has no `previousVersion` and no
`summary` field. -/
theorem c7_wire_fields_amended (e : Federation.ApubEdit) :
    (Federation.ApubEdit.serializeFields e).map Prod.fst = ["type", "id", "diff"] ∧
    Federation.EditType.serialize e.kind = "Edit" := by
  obtain ⟨k, i, df⟩ := e
  cases k
  exact ⟨rfl, rfl⟩

/-- C8: `DbInstance::send` wraps every outbound activity in the standard
activity-streams context envelope before handing it to delivery, and
`DbInstance::follow` targets the recipient's shared-inbox-or-inbox, which is
the shared inbox when present and the inbox otherwise. -/
theorem c8_outbound_delivery {α : Type} (self other : DbInstance) (act : α)
    (recipients : List Url) :
    (DbInstance.send self act recipients).payload = WithContext.new_default act ∧
    (DbInstance.send self act recipients).payload.context = [activityStreamsContext] ∧
    (DbInstance.send self act recipients).payload.inner = act ∧
    (DbInstance.send self act recipients).recipients = recipients ∧
    (DbInstance.follow self other).recipients = [other.shared_inbox_or_inbox] ∧
    other.shared_inbox_or_inbox = other.shared_inbox.getD other.inbox :=
  ⟨rfl, rfl, rfl, rfl, rfl, rfl⟩

/-- C9: `DbInstance::from_json` appends the decoded instance to the shared
in-memory instance list, and the decoded instance always has `local = false`,
`private_key = None` and empty `followers` and `follows` lists. -/
theorem c9_from_json_side_effects (json : Instance) (now : Int)
    (st : List DbInstance) :
    (DbInstance.from_json json now st).2 =
        st ++ [(DbInstance.from_json json now st).1] ∧
    (DbInstance.from_json json now st).1.is_local = false ∧
    (DbInstance.from_json json now st).1.private_key = none ∧
    (DbInstance.from_json json now st).1.followers = [] ∧
    (DbInstance.from_json json now st).1.follows = [] :=
  ⟨rfl, rfl, rfl, rfl, rfl⟩

/-- C10: on a non-empty users list, `Database::read_user(name)` returns `Ok`
with the first user exactly when `name` equals that first user's name, and an
`Invalid user` error for every other name — wherever else a matching user may
sit in the list. -/
theorem c10_read_user_first_only (db : Database) (nm : String)
    (h : db.users ≠ []) :
    ∃ u, db.users.head? = some u ∧
      (nm = u.name → db.read_user nm = some (Except.ok u)) ∧
      (nm ≠ u.name → db.read_user nm =
        some (Except.error ("Invalid user " ++ nm))) := by
  rcases db with ⟨users⟩
  rcases users with _ | ⟨u, us⟩
  · exact absurd rfl h
  · refine ⟨u, rfl, ?_, ?_⟩
    · intro he
      simp [Database.read_user, Database.local_user, he]
    · intro hne
      simp [Database.read_user, Database.local_user, hne]

/-- Witness for C10: a two-user database whose second user is named `"bob"`;
looking up `"bob"` still goes through the first user only. -/
theorem c10_read_user_first_only_witness :
    ∃ u, (Database.mk [⟨"alice"⟩, ⟨"bob"⟩]).users.head? = some u ∧
      ("bob" = u.name → (Database.mk [⟨"alice"⟩, ⟨"bob"⟩]).read_user "bob" =
        some (Except.ok u)) ∧
      ("bob" ≠ u.name → (Database.mk [⟨"alice"⟩, ⟨"bob"⟩]).read_user "bob" =
        some (Except.error ("Invalid user " ++ "bob"))) :=
  c10_read_user_first_only (Database.mk [⟨"alice"⟩, ⟨"bob"⟩]) "bob" (by decide)

end Ibis
